import Mathlib

/-!
# Verification of the ProteinMCP MCP/Skill registry subsystem

Shallow embedding of the registry and status-tracking subsystem of the
ProteinMCP repository (`src/mcp/mcp.py`, `src/mcp/mcp_manager.py`,
`src/skill/skill_manager.py`), together with theorems settling the frozen
claims about it.

Modelling conventions:
* Filesystem paths are plain POSIX strings in normalized form (no trailing
  slash, no `..`/`.` inner components); the set of existing paths is a
  `List String`.
* External processes are modelled by a `ProcOutcome` supplied through an
  environment record: a completed run carries an exit code, stdout and
  stderr; a timeout and a generic exception (including a missing binary,
  Python's `FileNotFoundError`) are the other outcomes.
* Machine effects (field mutation on the Python object, filesystem changes,
  status-cache changes, inventory of subprocess invocations) are returned
  explicitly in result records.
* Python string truthiness (`if self.path:`) is modelled by `pyTruthy`.
-/

namespace ProteinMCP

/-- POSIX absoluteness test, as `pathlib.Path.is_absolute` on POSIX:
the path starts with `/`. -/
def isAbsolute (p : String) : Bool :=
  p.data.head? == some '/'

/-- String prefix test (`str.startswith` / `Path.relative_to`
applicability), on the character lists. -/
def strIsPrefixOf (pre s : String) : Bool :=
  pre.data.isPrefixOf s.data

/-- The project root directory (`PROJECT_ROOT` in `src/mcp/mcp.py`);
an arbitrary fixed absolute path. -/
def PROJECT_ROOT : String := "/ProteinMCP"

/-- `TOOL_MCPS_DIR = PROJECT_ROOT / "tool-mcps"` from `src/mcp/mcp.py`. -/
def TOOL_MCPS_DIR : String := PROJECT_ROOT ++ "/tool-mcps"

/-- `PUBLIC_MCPS_DIR = TOOL_MCPS_DIR / "public"` from `src/mcp/mcp.py`. -/
def PUBLIC_MCPS_DIR : String := TOOL_MCPS_DIR ++ "/public"

/-- `resolve_path` from `src/mcp/mcp.py`: absolute paths are returned
unchanged, relative paths are joined to `PROJECT_ROOT`. -/
def resolve_path (p : String) : String :=
  if isAbsolute p then p else PROJECT_ROOT ++ "/" ++ p

/-- `make_relative_path` from `src/mcp/mcp.py`: an absolute path under
`PROJECT_ROOT` is replaced by its path relative to the project root
(`Path.relative_to`); any other path is returned unchanged.
`Path.relative_to` on the root itself yields `"."`. -/
def make_relative_path (p : String) : String :=
  if isAbsolute p then
    if p = PROJECT_ROOT then "."
    else if strIsPrefixOf (PROJECT_ROOT ++ "/") p then
      p.drop (PROJECT_ROOT.length + 1)
    else p
  else p

/-- Python truthiness of an optional string field: `None` and `""` are
falsy. -/
def pyTruthy (o : Option String) : Bool :=
  match o with
  | none => false
  | some s => !s.isEmpty

/-- Python `needle in hay` substring test. -/
def strContains (hay needle : String) : Bool :=
  needle == "" || (hay.splitOn needle).length != 1

/-- `url.rstrip("/").split("/")[-1]`: the last path segment of a URL after
stripping trailing slashes. -/
def repoNameOfUrl (url : String) : String :=
  ((String.mk (url.data.reverse.dropWhile (fun c => c == '/')).reverse).splitOn "/").getLastD ""

/-- The five recognized members of the `MCPRuntime` enum in
`src/mcp/mcp.py`. -/
def validRuntimes : List String := ["python", "node", "uvx", "npx", "binary"]

/-- Runtime values that denote package-based MCPs
(`MCPRuntime.UVX.value`, `MCPRuntime.NPX.value`). -/
def isPackageRuntime (r : String) : Bool :=
  r == "uvx" || r == "npx"

/-- The `MCPStatus` enum from `src/mcp/mcp.py`. -/
inductive MCPStatus where
  | not_installed
  | installed
  | registered
  | both
  deriving DecidableEq, Repr

/-- The string value of each `MCPStatus` member. -/
def MCPStatus.value : MCPStatus → String
  | .not_installed => "not_installed"
  | .installed => "installed"
  | .registered => "registered"
  | .both => "both"

/-- `MCPStatus(s)` construction from a string: `none` models the
`ValueError` raised on an unrecognized value. -/
def parseStatus (s : String) : Option MCPStatus :=
  if s = "not_installed" then some .not_installed
  else if s = "installed" then some .installed
  else if s = "registered" then some .registered
  else if s = "both" then some .both
  else none

/-- The `MCP` dataclass from `src/mcp/mcp.py` (field for field). -/
structure MCP where
  name : String
  url : String := ""
  description : String := ""
  source : String := "Community"
  runtime : String := "python"
  setup_commands : List String := []
  setup_script : Option String := none
  server_command : String := ""
  server_args : List String := []
  env_vars : List (String × String) := []
  dependencies : List String := []
  path : Option String := none
  deriving DecidableEq, Repr

/-- `MCP.__post_init__`: an unrecognized `runtime` string is normalized to
`"python"`; a recognized one is kept.  Every Python-side construction of an
`MCP` runs this. -/
def postInit (m : MCP) : MCP :=
  if m.runtime ∈ validRuntimes then m else { m with runtime := "python" }

/-- `MCP._get_clean_name`: replace `/` and `-` by `_`. -/
def getCleanName (m : MCP) : String :=
  (m.name.replace "/" "_").replace "-" "_"

/-- Outcome of one external process invocation:
a completed run (exit code, stdout, stderr), a timeout
(`subprocess.TimeoutExpired`) or a generic exception (including
`FileNotFoundError` for a missing binary). -/
inductive ProcOutcome where
  | res (returncode : Int) (stdout stderr : String)
  | timeout
  | err
  deriving DecidableEq, Repr

/-- Modelled from the spec: the on-disk status-cache file of the missing
`src/mcp/status_cache.py` module (spec section 4.1 / section 6).  It is either
absent, present but unparsable, or a parsed mapping from `"<name>:<cli>"`
keys to a status string plus the write timestamp. -/
inductive CacheFile where
  | missing
  | unparsable
  | parsed (entries : List (String × String × Nat))
  deriving DecidableEq, Repr

/-- Modelled from the spec: the cache TTL of 300 seconds (5 minutes). -/
def TTL : Nat := 300

/-- Modelled from the spec: `read_cache` of the missing
`src/mcp/status_cache.py` — a missing or unparsable cache file degrades to an
empty mapping, never an error. -/
def readCacheEntries (cf : CacheFile) : List (String × String × Nat) :=
  match cf with
  | .missing => []
  | .unparsable => []
  | .parsed es => es

/-- Modelled from the spec: `StatusCache.get_status(key)` of the missing
`src/mcp/status_cache.py` — returns `none` (absent) if the cache file is
missing or unparsable, if the key has no entry, or if the entry's timestamp
is older than the TTL; otherwise the stored status string.  Total: it never
raises. -/
def cacheGetStatus (now : Nat) (cf : CacheFile) (key : String) : Option String :=
  match cf with
  | .missing => none
  | .unparsable => none
  | .parsed es =>
    match es.lookup key with
    | none => none
    | some e => if now - e.2 > TTL then none else some e.1

/-- Modelled from the spec: `StatusCache.set_status(key, status)` of the
missing `src/mcp/status_cache.py` — upsert the key with the current
timestamp (a corrupt or missing file is treated as empty first). -/
def cacheSetStatus (now : Nat) (cf : CacheFile) (key status : String) : CacheFile :=
  .parsed ((readCacheEntries cf).filter (fun e => e.1 ≠ key) ++ [(key, status, now)])

/-- `MCP.invalidate_status_cache` from `src/mcp/mcp.py`: read the cache,
delete this MCP's key if present, and write the statuses back (`write_cache`
of the missing `src/mcp/status_cache.py` is modelled from the spec as
replacing the parsed content).  If the key is absent nothing is written. -/
def invalidateStatusCache (cf : CacheFile) (key : String) : CacheFile :=
  let es := readCacheEntries cf
  if (es.lookup key).isSome then .parsed (es.filter (fun e => e.1 ≠ key)) else cf

/-- `MCP.is_installed` from `src/mcp/mcp.py`.  Takes the list of existing
filesystem paths; returns the boolean result together with the (possibly
mutated) MCP, since the URL-derived branch lazily populates `self.path`. -/
def isInstalled (fs : List String) (m : MCP) : Bool × MCP :=
  if pyTruthy m.path then
    ((resolve_path (m.path.getD "")) ∈ fs, m)
  else if isPackageRuntime m.runtime then
    (true, m)
  else if m.url ≠ "" then
    let cloned := PUBLIC_MCPS_DIR ++ "/" ++ repoNameOfUrl m.url
    if cloned ∈ fs then (true, { m with path := some cloned }) else (false, m)
  else
    (false, m)

/-- The external world an operation runs against: which binaries `shutil.which`
finds, the outcome of each kind of subprocess invocation, the interactive
answer returned by `input()`, and the current wall-clock time for cache
timestamps. -/
structure Env where
  which : List String := []
  cloneOutcome : ProcOutcome := .res 0 "" ""
  setupScriptOutcome : ProcOutcome := .res 0 "" ""
  setupCmdOutcomes : List ProcOutcome := []
  listOutcome : ProcOutcome := .res 0 "" ""
  addOutcome : ProcOutcome := .res 0 "" ""
  removeOutcome : ProcOutcome := .res 0 "" ""
  userAnswer : String := ""
  now : Nat := 0
  deriving DecidableEq, Repr

/-- `MCP._run_setup_script` from `src/mcp/mcp.py`: requires a truthy `path`
and `setup_script` and the script file present under the MCP's directory;
then success iff the script process exits 0 (timeout and exceptions fail). -/
def runSetupScript (env : Env) (fs : List String) (m : MCP) : Bool :=
  if !pyTruthy m.path || !pyTruthy m.setup_script then false
  else
    let scriptPath := resolve_path (m.path.getD "") ++ "/" ++ m.setup_script.getD ""
    if scriptPath ∉ fs then false
    else
      match env.setupScriptOutcome with
      | .res code _ _ => code == 0
      | .timeout => false
      | .err => false

/-- One step of the `for cmd in self.setup_commands` loop of
`MCP._run_setup_commands`: a non-zero exit is tolerated (logged, loop
continues), a timeout or exception aborts with failure. -/
def setupCommandsLoop : List ProcOutcome → Bool
  | [] => true
  | o :: rest =>
    match o with
    | .res _ _ _ => setupCommandsLoop rest
    | .timeout => false
    | .err => false

/-- `MCP._run_setup_commands` from `src/mcp/mcp.py`: requires a truthy
`path`; runs every command in order, tolerating non-zero exits but failing
on a timeout or exception.  The i-th command's outcome is the i-th element
of `env.setupCmdOutcomes` (default: clean exit). -/
def runSetupCommands (env : Env) (m : MCP) : Bool :=
  if !pyTruthy m.path then false
  else
    setupCommandsLoop
      ((List.range m.setup_commands.length).map
        (fun i => env.setupCmdOutcomes.getD i (.res 0 "" "")))

/-- `MCP._run_setup` from `src/mcp/mcp.py`: prefer the setup script when
configured and present (falling back to the commands on script failure);
else run the setup commands when configured; else trivially succeed. -/
def runSetup (env : Env) (fs : List String) (m : MCP) : Bool :=
  let scriptTried :=
    pyTruthy m.setup_script && pyTruthy m.path &&
      decide ((resolve_path (m.path.getD "") ++ "/" ++ m.setup_script.getD "") ∈ fs)
  if scriptTried && runSetupScript env fs m then true
  else if m.setup_commands ≠ [] then runSetupCommands env m
  else true

/-- `shutil.rmtree`: remove a directory and everything below it. -/
def rmtree (fs : List String) (dir : String) : List String :=
  fs.filter (fun p => p ≠ dir && !strIsPrefixOf (dir ++ "/") p)

/-- Result of `MCP.install`: the returned boolean, the mutated MCP, the
updated filesystem and cache, and whether a `git clone` subprocess was
attempted and whether `_run_setup` was entered. -/
structure InstallResult where
  ok : Bool
  mcp : MCP
  fs : List String
  cache : CacheFile
  cloneInvoked : Bool
  ranSetup : Bool
  deriving DecidableEq, Repr

/-- The clone destination computed by `MCP.install`: the resolved explicit
`path` when one is given, else `<PUBLIC_MCPS_DIR>/<last URL segment>`. -/
def cloneTarget (m : MCP) : String :=
  if pyTruthy m.path then resolve_path (m.path.getD "")
  else PUBLIC_MCPS_DIR ++ "/" ++ repoNameOfUrl m.url

/-- The clone-and-setup tail of `MCP.install` (from the
`if not self.url:` check onward). -/
def installClone (env : Env) (fs : List String) (cache : CacheFile)
    (m : MCP) (force : Bool) : InstallResult :=
  if m.url = "" then ⟨false, m, fs, cache, false, false⟩
  else
    let target := cloneTarget m
    if target ∈ fs && !force then
      ⟨true, { m with path := some target }, fs, cache, false, false⟩
    else
      let fs1 := if target ∈ fs then rmtree fs target else fs
      match env.cloneOutcome with
      | .timeout => ⟨false, m, fs1, cache, true, false⟩
      | .err => ⟨false, m, fs1, cache, true, false⟩
      | .res code _ _ =>
        if code ≠ 0 then ⟨false, m, fs1, cache, true, false⟩
        else
          let m1 := { m with path := some target }
          let fs2 := target :: fs1
          let cache1 := invalidateStatusCache cache (m.name ++ ":claude")
          ⟨runSetup env fs2 m1, m1, fs2, cache1, true, true⟩

/-- `MCP.install` from `src/mcp/mcp.py`, lines 261-374.  Steps: invalidate
the own cache entry; return `true` if already installed and not forced;
package runtimes succeed with another cache invalidation; a truthy `path`
that exists on disk runs setup and returns its result; a truthy `path` that
is missing falls through to cloning when a URL is given and fails
otherwise; cloning requires a URL, reuses an existing target when not
forced, removes it first when forced, and on clone success records the
path, invalidates the cache and returns the setup result. -/
def install (env : Env) (fs : List String) (cache : CacheFile)
    (m : MCP) (force : Bool) : InstallResult :=
  let cache0 := invalidateStatusCache cache (m.name ++ ":claude")
  let im := isInstalled fs m
  let m1 := im.2
  if im.1 && !force then ⟨true, m1, fs, cache0, false, false⟩
  else if isPackageRuntime m1.runtime then
    ⟨true, m1, fs, invalidateStatusCache cache0 (m1.name ++ ":claude"), false, false⟩
  else if pyTruthy m1.path then
    if resolve_path (m1.path.getD "") ∈ fs then
      let cache1 := invalidateStatusCache cache0 (m1.name ++ ":claude")
      ⟨runSetup env fs m1, m1, fs, cache1, false, true⟩
    else if m1.url ≠ "" then installClone env fs cache0 m1 force
    else ⟨false, m1, fs, cache0, false, false⟩
  else installClone env fs cache0 m1 force

/-- Result of `MCP.uninstall`: the returned boolean, the mutated MCP, the
updated filesystem and cache, and the directories recursively removed. -/
structure UninstallResult where
  ok : Bool
  mcp : MCP
  fs : List String
  cache : CacheFile
  removed : List String
  deriving DecidableEq, Repr

/-- `MCP.uninstall` from `src/mcp/mcp.py`, lines 376-414: a unit that is
not installed succeeds as a no-op; a package runtime clears `path` and
invalidates the cache; otherwise, when `remove_files` is set and `path` is
truthy the resolved directory is removed recursively, `path` cleared and
the cache invalidated; in every remaining case it succeeds with no state
change. -/
def uninstall (fs : List String) (cache : CacheFile)
    (m : MCP) (remove_files : Bool) : UninstallResult :=
  let im := isInstalled fs m
  let m1 := im.2
  if !im.1 then ⟨true, m1, fs, cache, []⟩
  else if isPackageRuntime m1.runtime then
    ⟨true, { m1 with path := none }, fs,
      invalidateStatusCache cache (m1.name ++ ":claude"), []⟩
  else if remove_files && pyTruthy m1.path then
    let p := resolve_path (m1.path.getD "")
    ⟨true, { m1 with path := none }, rmtree fs p,
      invalidateStatusCache cache (m1.name ++ ":claude"),
      if p ∈ fs then [p] else []⟩
  else ⟨true, m1, fs, cache, []⟩

/-- `MCP.is_registered` from `src/mcp/mcp.py`: for `claude` or `gemini`,
run `<cli> mcp list` and substring-match the clean name in stdout (the exit
code is ignored); a missing binary or timeout yields `false`; any other cli
yields `false` without a subprocess.  Returns the boolean and the
subprocess invocations performed. -/
def isRegistered (env : Env) (m : MCP) (cli : String) : Bool × List (List String) :=
  if cli = "claude" || cli = "gemini" then
    match env.listOutcome with
    | .res _ out _ => (strContains out (getCleanName m), [[cli, "mcp", "list"]])
    | .timeout => (false, [[cli, "mcp", "list"]])
    | .err => (false, [[cli, "mcp", "list"]])
  else (false, [])

/-- Result of a registration-side operation: the returned boolean, the
status cache afterwards, and the subprocess invocations performed. -/
structure RegResult where
  ok : Bool
  cache : CacheFile
  trace : List (List String)
  deriving DecidableEq, Repr

/-- `MCP.unregister` from `src/mcp/mcp.py`: require the cli binary; run
`<cli> mcp remove <cleanName>` with a 10s timeout; on exit 0 invalidate the
cache entry and succeed; on non-zero exit, timeout or exception fail. -/
def unregister (env : Env) (cache : CacheFile) (m : MCP) (cli : String) : RegResult :=
  if cli ∉ env.which then ⟨false, cache, []⟩
  else
    let cmd := [cli, "mcp", "remove", getCleanName m]
    match env.removeOutcome with
    | .res code _ _ =>
      if code ≠ 0 then ⟨false, cache, [cmd]⟩
      else ⟨true, invalidateStatusCache cache (m.name ++ ":" ++ cli), [cmd]⟩
    | .timeout => ⟨false, cache, [cmd]⟩
    | .err => ⟨false, cache, [cmd]⟩

/-- `MCP._run_register_command` from `src/mcp/mcp.py`, lines 726-751: run
the prepared add command once with a 30s timeout; on non-zero exit, timeout
or exception return `false` with the cache untouched; on exit 0 invalidate
this MCP's cache entry for the cli and return `true`.  Exactly one
subprocess is invoked in every case. -/
def runRegisterCommand (env : Env) (cache : CacheFile) (cmd : List String)
    (cli : String) (m : MCP) : RegResult :=
  match env.addOutcome with
  | .res code _ _ =>
    if code ≠ 0 then ⟨false, cache, [cmd]⟩
    else ⟨true, invalidateStatusCache cache (m.name ++ ":" ++ cli), [cmd]⟩
  | .timeout => ⟨false, cache, [cmd]⟩
  | .err => ⟨false, cache, [cmd]⟩

/-- The `--env K=V` pairs prepended to every add command. -/
def envArgs (m : MCP) : List String :=
  m.env_vars.flatMap (fun kv => ["--env", kv.1 ++ "=" ++ kv.2])

/-- Argument rewriting shared by `_register_node` and `_register_python`:
substitute `$MCP_PATH` and absolutize relative file-like arguments
(`.js`/`.py` suffix for node, `.py` suffix for python, or any argument
containing `/`). -/
def rewriteArg (mcpPath : String) (suffixes : List String) (arg : String) : String :=
  let a := arg.replace "$MCP_PATH" mcpPath
  if !isAbsolute a && (suffixes.any (fun s => a.endsWith s) || a.contains '/') then
    mcpPath ++ "/" ++ a
  else a

/-- `MCP._find_python_env` from `src/mcp/mcp.py`: prefer
`env/bin/python`, `.venv/bin/python`, `venv/bin/python` under the MCP's
path, in that order; else the bare `python`. -/
def findPythonEnv (fs : List String) (m : MCP) : String :=
  if !pyTruthy m.path then "python"
  else
    let p := resolve_path (m.path.getD "")
    let cands := [p ++ "/env/bin/python", p ++ "/.venv/bin/python", p ++ "/venv/bin/python"]
    match cands.find? (fun c => c ∈ fs) with
    | some c => c
    | none => "python"

/-- `MCP._find_server_entry` from `src/mcp/mcp.py`: check the fixed list of
conventional entry-point locations, then fall back to a recursive glob for
`server.py`, `main.py`, `index.py` (modelled as the first existing path
under the MCP directory with that basename, in filesystem-list order). -/
def findServerEntry (fs : List String) (m : MCP) : Option String :=
  if !pyTruthy m.path then none
  else
    let p := resolve_path (m.path.getD "")
    let cands := [p ++ "/src/server.py", p ++ "/server.py", p ++ "/src/index.py",
                  p ++ "/index.py", p ++ "/main.py", p ++ "/src/main.py"]
    match cands.find? (fun c => c ∈ fs) with
    | some c => some c
    | none =>
      let inDir := fun (q : String) => q = p || strIsPrefixOf (p ++ "/") q
      let globs := ["/server.py", "/main.py", "/index.py"]
      (globs.map (fun g => fs.find? (fun q => inDir q && q.endsWith g))).findSome? id

/-- `MCP._register_uvx` / `MCP._register_npx` command construction. -/
def packageAddCmd (m : MCP) (cli cleanNm pkg : String) : List String :=
  [cli, "mcp", "add", cleanNm] ++ envArgs m ++ ["--", pkg] ++ m.server_args

/-- The runtime dispatch tail of `MCP.register` (after the binary check and
the already-registered handling): build the add command per runtime and run
it through `_run_register_command`.  `node` and `python` fail without a
subprocess when `path` is unset; `python` with no explicit server command
and no discoverable entry point also fails without a subprocess. -/
def registerDispatch (env : Env) (fs : List String) (cache : CacheFile)
    (m : MCP) (cli : String) : RegResult :=
  let cleanNm := getCleanName m
  if m.runtime = "uvx" then
    runRegisterCommand env cache (packageAddCmd m cli cleanNm "uvx") cli m
  else if m.runtime = "npx" then
    runRegisterCommand env cache (packageAddCmd m cli cleanNm "npx") cli m
  else if m.runtime = "node" then
    if !pyTruthy m.path then ⟨false, cache, []⟩
    else
      let p := resolve_path (m.path.getD "")
      let cmd := [cli, "mcp", "add", cleanNm] ++ envArgs m ++
        ["--", if m.server_command = "" then "node" else m.server_command] ++
        m.server_args.map (rewriteArg p [".js", ".py"])
      runRegisterCommand env cache cmd cli m
  else
    if !pyTruthy m.path then ⟨false, cache, []⟩
    else
      let p := resolve_path (m.path.getD "")
      let py := findPythonEnv fs m
      let base := [cli, "mcp", "add", cleanNm] ++ envArgs m ++ ["--", py]
      if m.server_command ≠ "" && m.server_args ≠ [] then
        runRegisterCommand env cache
          (base ++ m.server_args.map (rewriteArg p [".py"])) cli m
      else
        match findServerEntry fs m with
        | none => ⟨false, cache, []⟩
        | some entry => runRegisterCommand env cache (base ++ [entry]) cli m

/-- `MCP.register` from `src/mcp/mcp.py`, lines 528-567: require the cli
binary via `shutil.which` (returning `false` with no subprocess and no
cache change otherwise); when already registered, prompt — any answer other
than `y` keeps the old registration and returns `true`, a `y` unregisters
first; then dispatch on the runtime. -/
def register (env : Env) (fs : List String) (cache : CacheFile)
    (m : MCP) (cli : String) : RegResult :=
  if cli ∉ env.which then ⟨false, cache, []⟩
  else
    let reg := isRegistered env m cli
    if reg.1 then
      if (env.userAnswer.trim.toLower ≠ "y") then ⟨true, cache, reg.2⟩
      else
        let ur := unregister env cache m cli
        let d := registerDispatch env fs ur.cache m cli
        ⟨d.ok, d.cache, reg.2 ++ ur.trace ++ d.trace⟩
    else
      let d := registerDispatch env fs cache m cli
      ⟨d.ok, d.cache, reg.2 ++ d.trace⟩

/-- `MCP.get_status` from `src/mcp/mcp.py`: with `use_cache`, a cached
string that parses as a status is returned directly; otherwise the real
status is computed from `is_installed`/`is_registered`, classified on the
lattice, written back to the cache (only when `use_cache`) and returned.
Returns the status, the possibly path-mutated MCP and the cache. -/
def getStatus (env : Env) (fs : List String) (cache : CacheFile)
    (m : MCP) (cli : String) (use_cache : Bool) : MCPStatus × MCP × CacheFile :=
  let key := m.name ++ ":" ++ cli
  let cached : Option MCPStatus :=
    if use_cache then
      match cacheGetStatus env.now cache key with
      | some s => parseStatus s
      | none => none
    else none
  match cached with
  | some st => (st, m, cache)
  | none =>
    let im := isInstalled fs m
    let reg := (isRegistered env im.2 cli).1
    let st : MCPStatus :=
      if im.1 && reg then .both
      else if reg then .registered
      else if im.1 then .installed
      else .not_installed
    let cache1 := if use_cache then cacheSetStatus env.now cache key st.value else cache
    (st, im.2, cache1)

/-- One persisted registry entry: the dict produced for an MCP by
`MCPManager.save_installed_mcps` / `save_public_mcps` — `asdict` minus the
`None`-valued keys (`to_dict`), minus the `name` key (it is the mapping
key), with a truthy `path` value relativized.  `none` in `setup_script` or
`path` models the key being absent. -/
structure MCPEntry where
  url : String
  description : String
  source : String
  runtime : String
  setup_commands : List String
  setup_script : Option String
  server_command : String
  server_args : List String
  env_vars : List (String × String)
  dependencies : List String
  path : Option String
  deriving DecidableEq, Repr

/-- The path-value transformation applied on save: a truthy `path` is
relativized with `make_relative_path`, a falsy one kept as is. -/
def persistPath (p : String) : String :=
  if p.isEmpty then p else make_relative_path p

/-- The per-MCP serialization step of `MCPManager.save_installed_mcps`
(`src/mcp/mcp_manager.py`, lines 188-209): `to_dict`, pop `name`, and
relativize a present truthy `path` with `make_relative_path`. -/
def saveEntry (m : MCP) : MCPEntry where
  url := m.url
  description := m.description
  source := m.source
  runtime := m.runtime
  setup_commands := m.setup_commands
  setup_script := m.setup_script
  server_command := m.server_command
  server_args := m.server_args
  env_vars := m.env_vars
  dependencies := m.dependencies
  path := m.path.map persistPath

/-- The per-entry deserialization step of `MCPManager.load_installed_mcps`
(`src/mcp/mcp_manager.py`, lines 118-159): the mapping key becomes `name`,
absent keys take the dataclass defaults, and `MCP(**info)` runs
`__post_init__`. -/
def loadEntry (n : String) (e : MCPEntry) : MCP :=
  postInit
    { name := n
      url := e.url
      description := e.description
      source := e.source
      runtime := e.runtime
      setup_commands := e.setup_commands
      setup_script := e.setup_script
      server_command := e.server_command
      server_args := e.server_args
      env_vars := e.env_vars
      dependencies := e.dependencies
      path := e.path }

/-- `MCPManager.save_installed_mcps` over a whole name-keyed map (the
persisted document body `{mcps: ...}`). -/
def saveMap (l : List (String × MCP)) : List (String × MCPEntry) :=
  l.map (fun p => (p.1, saveEntry p.2))

/-- `MCPManager.load_installed_mcps` over a whole persisted document. -/
def loadMap (l : List (String × MCPEntry)) : List (String × MCP) :=
  l.map (fun p => (p.1, loadEntry p.1 p.2))

/-- `MCPManager.get_mcp`: look the name up among installed MCPs first, then
among public MCPs. -/
def getMcp (installed pub : List (String × MCP)) (n : String) : Option MCP :=
  match installed.lookup n with
  | some m => some m
  | none => pub.lookup n

/-- `SkillManager._check_mcp_status` from `src/skill/skill_manager.py`,
lines 102-132: partition the requested names into those whose cached/real
status is `BOTH` (already installed) and the rest (needing installation);
a name not found in either registry needs installation.  The status cache
is threaded through the sequence of `get_status` calls. -/
def checkMcpStatus (env : Env) (fs : List String)
    (installed pub : List (String × MCP)) (cli : String) :
    List String → CacheFile → List String × List String × CacheFile
  | [], cache => ([], [], cache)
  | n :: rest, cache =>
    match getMcp installed pub n with
    | some m =>
      let r := getStatus env fs cache m cli true
      let t := checkMcpStatus env fs installed pub cli rest r.2.2
      if r.1 = .both then (n :: t.1, t.2.1, t.2.2)
      else (t.1, n :: t.2.1, t.2.2)
    | none =>
      let t := checkMcpStatus env fs installed pub cli rest cache
      (t.1, n :: t.2.1, t.2.2)

/-- The keyword parameters accepted by `MCP.install` (`self` aside):
only `force`. -/
def installKwParams : List String := ["force"]

/-- A Python keyword-argument call of `MCP.install`: binding a keyword that
is not a parameter of `install` raises `TypeError` before the body runs
(`none`); otherwise the body executes with `force` bound from the keywords
or its default. -/
def callInstallKw (env : Env) (fs : List String) (cache : CacheFile)
    (m : MCP) (kwargs : List (String × Bool)) : Option InstallResult :=
  if kwargs.all (fun kv => kv.1 ∈ installKwParams) then
    some (install env fs cache m ((kwargs.lookup "force").getD false))
  else none

/-- The `install_one` worker of `SkillManager._install_mcps_parallel`
(`src/skill/skill_manager.py`, lines 151-160): look the name up; call
`mcp.install(capture_output=True)` inside `try/except` — any exception
(including the `TypeError` from an unknown keyword) yields a failure
result.  Returns (success, whether the body of `MCP.install` ran). -/
def installOne (env : Env) (fs : List String) (cache : CacheFile)
    (installed pub : List (String × MCP)) (n : String) : Bool × Bool :=
  match getMcp installed pub n with
  | none => (false, false)
  | some m =>
    match callInstallKw env fs cache m [("capture_output", true)] with
    | none => (false, false)
    | some r => (r.ok, true)

/-- Observable outcome of `SkillManager._install_mcps_parallel`: the
per-name success results of phase 1, the names whose `MCP.install` body
actually executed, and the names for which phase 2 invoked `register`. -/
structure ParResult where
  results : List (String × Bool)
  installBodiesRun : List String
  registrations : List String
  deriving DecidableEq, Repr

/-- `SkillManager._install_mcps_parallel` from `src/skill/skill_manager.py`,
lines 134-180: phase 1 runs `install_one` for every name (each worker
starting from the same initial state); phase 2 iterates the names in order
and invokes `register` exactly for those whose phase-1 result is truthy. -/
def installMcpsParallel (env : Env) (fs : List String) (cache : CacheFile)
    (installed pub : List (String × MCP)) (names : List String) : ParResult :=
  let rs := names.map (fun n => (n, installOne env fs cache installed pub n))
  { results := rs.map (fun x => (x.1, x.2.1))
    installBodiesRun := (rs.filter (fun x => x.2.2)).map (fun x => x.1)
    registrations :=
      names.filter (fun n => ((rs.map (fun x => (x.1, x.2.1))).lookup n).getD false) }

/-- Whether the add command of `_run_register_command` completed with exit
code 0 in the given environment. -/
def addSucceeds (env : Env) : Bool :=
  match env.addOutcome with
  | .res code _ _ => code == 0
  | .timeout => false
  | .err => false

/- Concrete sample values used by counterexamples and witnesses. -/

/-- An empty external environment: no binaries found, all process outcomes
clean, time 0. -/
def env0 : Env := {}

/-- A uvx-runtime MCP whose `path` field points at a non-existent
location. -/
def mcpUvxBadPath : MCP := { name := "u", runtime := "uvx", path := some "/nowhere" }

/-- A uvx-runtime MCP with no `path`. -/
def mcpUvx : MCP := { name := "u", runtime := "uvx" }

/-- A plain python-runtime MCP with neither `path` nor `url`. -/
def mcpBare : MCP := { name := "u", runtime := "python" }

/-- A python-runtime MCP installed at an existing absolute path. -/
def mcpAtX : MCP := { name := "u", runtime := "python", path := some "/x" }

/-- An environment whose add command fails with an "already exists"
message on stderr, with the claude binary present. -/
def envAlreadyExists : Env :=
  { which := ["claude"],
    addOutcome := .res 1 "" "MCP server u already exists in local config" }

/-- The add command `_register_uvx` builds for `mcpUvx` under claude. -/
def cmdAddUvx : List String := ["claude", "mcp", "add", "u", "--", "uvx"]

/-- A python MCP cloneable from a URL. -/
def mcpA : MCP := { name := "a", runtime := "python", url := "https://e/x/a_mcp" }

/-- A second python MCP cloneable from a URL. -/
def mcpB : MCP := { name := "b", runtime := "python", url := "https://e/x/b_mcp" }

/-- A registry with two python MCPs needing installation, used to exercise
the parallel bulk-install path. -/
def regTwo : List (String × MCP) := [("a", mcpA), ("b", mcpB)]

/-- A registry map exercising every serialization case: a unit with all
optional fields unset, a unit with every field populated and a `path`
inside the project root, and a unit whose `path` is outside the project
root. -/
def regRoundTrip : List (String × MCP) :=
  [("bare", { name := "bare" }),
   ("full", { name := "full", url := "https://x/y", description := "d", source := "Tool",
              runtime := "node", setup_commands := ["npm install"], setup_script := some "q.sh",
              server_command := "node", server_args := ["build/index.js"],
              env_vars := [("K", "V")], dependencies := ["node"],
              path := some (PROJECT_ROOT ++ "/tool-mcps/y") }),
   ("outside", { name := "outside", runtime := "python", path := some "/elsewhere/y" })]

/-- A stale cache file: one entry for `u:claude` written 301 seconds before
the sample environment's clock. -/
def staleCache : CacheFile := .parsed [("u:claude", "both", 699)]

/-- An environment whose clock stands 301 seconds after `staleCache`'s
entry was written. -/
def envT1000 : Env := { now := 1000 }

/-! ## Helper lemmas -/

theorem strdata_append (a b : String) : (a ++ b).data = a.data ++ b.data := by
  cases a; cases b; rfl

theorem isAbsolute_append (a b : String) (h : isAbsolute a = true) :
    isAbsolute (a ++ b) = true := by
  unfold isAbsolute at h ⊢
  rw [strdata_append]
  cases hd : a.data with
  | nil => rw [hd] at h; simp at h
  | cons c l => rw [hd] at h; simpa using h

theorem isEmpty_false_of_isAbsolute (p : String) (h : isAbsolute p = true) :
    p.isEmpty = false := by
  have hne : p ≠ "" := by
    intro he
    rw [he] at h
    simp [isAbsolute] at h
  rw [Bool.eq_false_iff]
  intro hb
  exact hne ((String.isEmpty_iff p).mp hb)

theorem pyTruthy_of_isAbsolute (p : String) (h : isAbsolute p = true) :
    pyTruthy (some p) = true := by
  simp [pyTruthy, isEmpty_false_of_isAbsolute p h]

theorem resolve_path_isAbsolute (p : String) : isAbsolute (resolve_path p) = true := by
  unfold resolve_path
  split
  · assumption
  · exact isAbsolute_append (PROJECT_ROOT ++ "/") p (by decide)

theorem resolve_path_of_isAbsolute (p : String) (h : isAbsolute p = true) :
    resolve_path p = p := by
  simp [resolve_path, h]

theorem mrp_inside (r : String) :
    make_relative_path (PROJECT_ROOT ++ "/" ++ r) = r := by
  have habs : isAbsolute (PROJECT_ROOT ++ "/" ++ r) = true :=
    isAbsolute_append (PROJECT_ROOT ++ "/") r (by decide)
  have hne : PROJECT_ROOT ++ "/" ++ r ≠ PROJECT_ROOT := by
    intro he
    have hlen := congrArg (fun s => s.data.length) he
    simp only [strdata_append, List.length_append,
      show ("/" : String).data = ['/'] from rfl, List.length_cons, List.length_nil] at hlen
    omega
  have hpre : strIsPrefixOf (PROJECT_ROOT ++ "/") (PROJECT_ROOT ++ "/" ++ r) = true := by
    simp only [strIsPrefixOf, strdata_append]
    exact List.isPrefixOf_iff_prefix.2 (List.prefix_append _ _)
  have hdrop : (PROJECT_ROOT ++ "/" ++ r).drop (PROJECT_ROOT.length + 1) = r := by
    apply String.ext
    rw [String.data_drop, strdata_append]
    have hl : PROJECT_ROOT.length + 1 = (PROJECT_ROOT ++ "/").data.length := by decide
    rw [hl, List.drop_left]
  rw [make_relative_path, if_pos habs, if_neg hne, if_pos hpre, hdrop]

theorem mrp_outside (p : String) (h1 : isAbsolute p = true)
    (h2 : strIsPrefixOf (PROJECT_ROOT ++ "/") p = false) (h3 : p ≠ PROJECT_ROOT) :
    make_relative_path p = p := by
  rw [make_relative_path, if_pos h1, if_neg h3, h2]
  simp

theorem mrp_relative (p : String) (h : isAbsolute p = false) :
    make_relative_path p = p := by
  rw [make_relative_path, h]
  simp

theorem mrp_idem (p : String)
    (h : strIsPrefixOf (PROJECT_ROOT ++ "/") p = true →
         isAbsolute (p.drop (PROJECT_ROOT.length + 1)) = false) :
    make_relative_path (make_relative_path p) = make_relative_path p := by
  by_cases ha : isAbsolute p = true
  · by_cases hr : p = PROJECT_ROOT
    · have hin : make_relative_path p = "." := by
        rw [make_relative_path, if_pos ha, if_pos hr]
      rw [hin]
      decide
    · by_cases hp : strIsPrefixOf (PROJECT_ROOT ++ "/") p = true
      · have hin : make_relative_path p = p.drop (PROJECT_ROOT.length + 1) := by
          rw [make_relative_path, if_pos ha, if_neg hr, if_pos hp]
        rw [hin]
        exact mrp_relative _ (h hp)
      · rw [mrp_outside p ha (by simpa using hp) hr, mrp_outside p ha (by simpa using hp) hr]
  · rw [mrp_relative p (by simpa using ha), mrp_relative p (by simpa using ha)]

theorem postInit_of_valid (m : MCP) (h : m.runtime ∈ validRuntimes) :
    postInit m = m := by
  simp [postInit, h]

/-! ## Claim theorems -/

/-- C7: constructing an MCP always succeeds (`postInit` is total) and
normalizes the runtime: a runtime string outside the five recognized
variants becomes `"python"`, each of the five recognized values is kept as
given. -/
theorem C7_runtime_normalization (m : MCP) :
    (postInit m).runtime = if m.runtime ∈ validRuntimes then m.runtime else "python" := by
  unfold postInit
  split <;> simp_all

/-- C2, counterexample: the claim says a uvx-runtime unit's `is_installed`
is `true` for every value of `path`, but `is_installed` checks a truthy
`path` for existence before the package-kind check, so a uvx unit whose
`path` points at a non-existent location reports `false`. -/
theorem C2_counterexample :
    (isInstalled [] mcpUvxBadPath).1 = false := by decide

/-- C2, amended: for a unit with runtime `uvx` or `npx`, `is_installed`
is `true` whenever `path` is unset (or empty); when `path` is set, the
result is instead the existence check of the resolved path. -/
theorem C2_package_isInstalled (fs : List String) (m : MCP)
    (h : m.runtime = "uvx" ∨ m.runtime = "npx") :
    (isInstalled fs m).1 =
      if pyTruthy m.path then decide (resolve_path (m.path.getD "") ∈ fs) else true := by
  have hp : isPackageRuntime m.runtime = true := by
    rcases h with h | h <;> simp [isPackageRuntime, h]
  unfold isInstalled
  split <;> simp [hp]

/-- C2, witness for `C2_package_isInstalled`. -/
theorem C2_package_isInstalled_witness :
    (mcpUvx.runtime = "uvx" ∨ mcpUvx.runtime = "npx") ∧
    (isInstalled [] mcpUvx).1 =
      if pyTruthy mcpUvx.path then decide (resolve_path (mcpUvx.path.getD "") ∈ ([] : List String))
      else true :=
  ⟨Or.inl rfl, C2_package_isInstalled [] mcpUvx (Or.inl rfl)⟩

/-- C3, counterexample: the claim says `_run_register_command` handles an
"already exists" failure of the add command by removing the existing
registration and retrying the add once.  In an environment where the add
command exits non-zero with "already exists" on stderr, the execution path
returns `false` after exactly one subprocess invocation: no remove command
is issued and the add is not retried. -/
theorem C3_counterexample :
    (runRegisterCommand envAlreadyExists .missing cmdAddUvx "claude" mcpUvx).ok = false ∧
    (runRegisterCommand envAlreadyExists .missing cmdAddUvx "claude" mcpUvx).trace = [cmdAddUvx] ∧
    ∀ c ∈ (runRegisterCommand envAlreadyExists .missing cmdAddUvx "claude" mcpUvx).trace,
      "remove" ∉ c := by decide

/-- C3, amended: `_run_register_command` runs the prepared add command
exactly once in every environment; a non-zero exit (whatever the stderr
says, "already exists" included), a timeout or an exception yield `false`
with the cache untouched, and a clean exit yields `true` with this MCP's
status-cache entry invalidated. -/
theorem C3_register_command_no_retry (env : Env) (cache : CacheFile)
    (cmd : List String) (cli : String) (m : MCP) :
    runRegisterCommand env cache cmd cli m =
      ⟨addSucceeds env,
       if addSucceeds env then invalidateStatusCache cache (m.name ++ ":" ++ cli) else cache,
       [cmd]⟩ := by
  unfold runRegisterCommand addSucceeds
  cases env.addOutcome with
  | res code out err =>
    by_cases h : code = 0
    · simp [h]
    · simp [h]
  | timeout => simp
  | err => simp

/-- C8: `register` with a cli binary that `shutil.which` does not find
returns `false`, invokes no subprocess at all, and leaves the status cache
unchanged. -/
theorem C8_register_missing_cli (env : Env) (fs : List String) (cache : CacheFile)
    (m : MCP) (cli : String) (h : cli ∉ env.which) :
    register env fs cache m cli = ⟨false, cache, []⟩ := by
  unfold register
  simp [h]

/-- C8, witness for `C8_register_missing_cli`. -/
theorem C8_register_missing_cli_witness :
    "claude" ∉ env0.which ∧
    register env0 [] .missing mcpUvx "claude" = ⟨false, .missing, []⟩ :=
  ⟨by decide, C8_register_missing_cli env0 [] .missing mcpUvx "claude" (by decide)⟩

/-- C9: `install` on a non-package-runtime unit with `path` unset and
`url` unset returns `false` as an ordinary boolean (the embedding is
total), without attempting the `git clone` subprocess and without running
setup; the only state change is the initial invalidation of the unit's own
cache entry. -/
theorem C9_install_nothing_to_do (env : Env) (fs : List String) (cache : CacheFile)
    (m : MCP) (h1 : isPackageRuntime m.runtime = false) (h2 : m.path = none)
    (h3 : m.url = "") :
    install env fs cache m false =
      ⟨false, m, fs, invalidateStatusCache cache (m.name ++ ":claude"), false, false⟩ := by
  have hii : isInstalled fs m = (false, m) := by
    unfold isInstalled
    rw [h2, h1, h3]
    simp [pyTruthy]
  unfold install
  rw [hii]
  simp [h1, h2, h3, pyTruthy, installClone]

/-- C9, witness for `C9_install_nothing_to_do`. -/
theorem C9_install_nothing_to_do_witness :
    isPackageRuntime mcpBare.runtime = false ∧ mcpBare.path = none ∧ mcpBare.url = "" ∧
    install env0 [] .missing mcpBare false =
      ⟨false, mcpBare, [], invalidateStatusCache .missing (mcpBare.name ++ ":claude"),
        false, false⟩ :=
  ⟨by decide, by decide, by decide,
    C9_install_nothing_to_do env0 [] .missing mcpBare (by decide) (by decide) (by decide)⟩

/-- C10: `uninstall(remove_files := false)` on an installed unit with a set
`path` and a non-package runtime returns `true`, leaves every field of the
unit unchanged (in particular `path` stays set), deletes nothing from the
filesystem, and leaves the status cache untouched. -/
theorem C10_uninstall_keep_files (fs : List String) (cache : CacheFile) (m : MCP)
    (hp : pyTruthy m.path = true) (hi : (isInstalled fs m).1 = true)
    (hr : isPackageRuntime m.runtime = false) :
    uninstall fs cache m false = ⟨true, m, fs, cache, []⟩ := by
  have hmem : resolve_path (m.path.getD "") ∈ fs := by
    unfold isInstalled at hi
    rw [hp] at hi
    simpa using hi
  have hii : isInstalled fs m = (true, m) := by
    unfold isInstalled
    rw [hp]
    simp [hmem]
  unfold uninstall
  rw [hii]
  simp [hr]

/-- C10, witness for `C10_uninstall_keep_files`. -/
theorem C10_uninstall_keep_files_witness :
    pyTruthy mcpAtX.path = true ∧ (isInstalled ["/x"] mcpAtX).1 = true ∧
    isPackageRuntime mcpAtX.runtime = false ∧
    uninstall ["/x"] staleCache mcpAtX false = ⟨true, mcpAtX, ["/x"], staleCache, []⟩ :=
  ⟨by decide, by decide, by decide,
    C10_uninstall_keep_files ["/x"] staleCache mcpAtX (by decide) (by decide) (by decide)⟩

/-- C6: when the cache file is missing, unparsable, or holds an entry for
the key whose timestamp is more than the 300-second TTL in the past,
`get_status` of the cache returns absent (the modelled functions are total,
so no error is ever raised), and `MCP.get_status` with `use_cache := true`
returns the same status as a cache-bypassing recomputation from
`is_installed`/`is_registered` rather than any stale value. -/
theorem C6_stale_cache_recomputes (env : Env) (fs : List String) (cache : CacheFile)
    (m : MCP) (cli : String)
    (h : cache = .missing ∨ cache = .unparsable ∨
      ∃ es e, cache = .parsed es ∧ es.lookup (m.name ++ ":" ++ cli) = some e ∧
        env.now - e.2 > TTL) :
    cacheGetStatus env.now cache (m.name ++ ":" ++ cli) = none ∧
    (getStatus env fs cache m cli true).1 = (getStatus env fs cache m cli false).1 := by
  have habsent : cacheGetStatus env.now cache (m.name ++ ":" ++ cli) = none := by
    rcases h with h | h | ⟨es, e, hc, hl, ht⟩
    · rw [h]; rfl
    · rw [h]; rfl
    · rw [hc]
      simp [cacheGetStatus, hl, ht]
  refine ⟨habsent, ?_⟩
  simp [getStatus, habsent]

/-- C6, witness for `C6_stale_cache_recomputes`. -/
theorem C6_stale_cache_recomputes_witness :
    (staleCache = .missing ∨ staleCache = .unparsable ∨
      ∃ es e, staleCache = .parsed es ∧ es.lookup (mcpBare.name ++ ":claude") = some e ∧
        envT1000.now - e.2 > TTL) ∧
    (cacheGetStatus envT1000.now staleCache (mcpBare.name ++ ":claude") = none ∧
     (getStatus envT1000 [] staleCache mcpBare "claude" true).1 =
       (getStatus envT1000 [] staleCache mcpBare "claude" false).1) :=
  ⟨Or.inr (Or.inr ⟨[("u:claude", "both", 699)], ("both", 699), rfl, by decide, by decide⟩),
    C6_stale_cache_recomputes envT1000 [] staleCache mcpBare "claude"
      (Or.inr (Or.inr ⟨[("u:claude", "both", 699)], ("both", 699), rfl, by decide, by decide⟩))⟩

/-- C1: evaluation of the bulk-install path at a failing input.  With two
units present in the registry and both passed as needing installation,
`_install_mcps_parallel` marks both installs as failed, the body of
`MCP.install` never executes for any unit (the worker calls
`mcp.install(capture_output=True)`, and `capture_output` is not a
parameter of `MCP.install`, so a `TypeError` is raised and caught), and the
registration phase is skipped for every unit — contradicting the claimed
behaviour (and the function's own documentation) that each needs-work
unit's install+setup phase executes and each successful install is
followed by registration. -/
theorem C1_parallel_install_bug :
    installMcpsParallel env0 [] .missing regTwo [] ["a", "b"] =
      ⟨[("a", false), ("b", false)], [], []⟩ ∧
    callInstallKw env0 [] .missing mcpA [("capture_output", true)] = none := by
  constructor
  · decide
  · decide

/-! ### Helper lemmas for install idempotence (C5) -/

theorem cloneTarget_isAbsolute (m : MCP) : isAbsolute (cloneTarget m) = true := by
  unfold cloneTarget
  split
  · exact resolve_path_isAbsolute _
  · exact isAbsolute_append (PUBLIC_MCPS_DIR ++ "/") _ (by decide)

theorem isInstalled_abs_mem (fs : List String) (m : MCP) (t : String)
    (hab : isAbsolute t = true) (hm : t ∈ fs) :
    (isInstalled fs { m with path := some t }).1 = true := by
  unfold isInstalled
  simp [pyTruthy_of_isAbsolute t hab, resolve_path_of_isAbsolute t hab, hm]

theorem isInstalled_truthy_mem (fs : List String) (m : MCP)
    (hp : pyTruthy m.path = true) (hm : resolve_path (m.path.getD "") ∈ fs) :
    (isInstalled fs m).1 = true := by
  unfold isInstalled
  simp [hp, hm]

theorem isInstalled_snd (fs : List String) (m : MCP) :
    (isInstalled fs m).2 = m ∨
    ∃ t, (isInstalled fs m).2 = { m with path := some t } ∧ isAbsolute t = true ∧ t ∈ fs := by
  unfold isInstalled
  by_cases h1 : pyTruthy m.path = true
  · simp [h1]
  · simp only [h1]
    by_cases h2 : isPackageRuntime m.runtime = true
    · simp [h2]
    · simp only [h2]
      by_cases h3 : m.url ≠ ""
      · simp only [if_pos h3]
        by_cases h4 : PUBLIC_MCPS_DIR ++ "/" ++ repoNameOfUrl m.url ∈ fs
        · refine Or.inr ⟨PUBLIC_MCPS_DIR ++ "/" ++ repoNameOfUrl m.url, ?_,
            isAbsolute_append (PUBLIC_MCPS_DIR ++ "/") _ (by decide), h4⟩
          simp [h4]
        · simp [h4]
      · simp [h3]

theorem isInstalled_snd_runtime (fs : List String) (m : MCP) :
    ((isInstalled fs m).2).runtime = m.runtime := by
  rcases isInstalled_snd fs m with hs | ⟨t, hs, _, _⟩ <;> rw [hs]

theorem isInstalled_idem (fs : List String) (m : MCP)
    (h : (isInstalled fs m).1 = true) :
    (isInstalled fs ((isInstalled fs m).2)).1 = true := by
  rcases isInstalled_snd fs m with hs | ⟨t, hs, hab, hm⟩
  · rw [hs]
    exact h
  · rw [hs]
    exact isInstalled_abs_mem fs m t hab hm

theorem install_eq_installed (env : Env) (fs : List String) (cache : CacheFile)
    (m : MCP) (h : (isInstalled fs m).1 = true) :
    install env fs cache m false =
      ⟨true, (isInstalled fs m).2, fs,
        invalidateStatusCache cache (m.name ++ ":claude"), false, false⟩ := by
  unfold install
  simp [h]

theorem install_eq_package (env : Env) (fs : List String) (cache : CacheFile)
    (m : MCP) (h1 : (isInstalled fs m).1 = false)
    (h2 : isPackageRuntime ((isInstalled fs m).2).runtime = true) :
    install env fs cache m false =
      ⟨true, (isInstalled fs m).2, fs,
        invalidateStatusCache (invalidateStatusCache cache (m.name ++ ":claude"))
          (((isInstalled fs m).2).name ++ ":claude"), false, false⟩ := by
  unfold install
  simp [h1, h2]

theorem installClone_ok_installed (env : Env) (fs : List String) (cache : CacheFile)
    (m : MCP) (h : (installClone env fs cache m false).ok = true) :
    (isInstalled (installClone env fs cache m false).fs
      ((installClone env fs cache m false).mcp)).1 = true := by
  by_cases h1 : m.url = ""
  · unfold installClone at h
    simp [h1] at h
  · by_cases h2 : cloneTarget m ∈ fs
    · have heq : installClone env fs cache m false =
          ⟨true, { m with path := some (cloneTarget m) }, fs, cache, false, false⟩ := by
        unfold installClone
        simp [h1, h2]
      rw [heq]
      exact isInstalled_abs_mem fs m _ (cloneTarget_isAbsolute m) h2
    · cases hc : env.cloneOutcome with
      | timeout =>
        unfold installClone at h
        simp [h1, h2, hc] at h
      | err =>
        unfold installClone at h
        simp [h1, h2, hc] at h
      | res code out err =>
        by_cases hz : code = 0
        · have heq : installClone env fs cache m false =
              ⟨runSetup env (cloneTarget m :: fs) { m with path := some (cloneTarget m) },
                { m with path := some (cloneTarget m) }, cloneTarget m :: fs,
                invalidateStatusCache cache (m.name ++ ":claude"), true, true⟩ := by
            unfold installClone
            simp [h1, h2, hc, hz]
          rw [heq]
          exact isInstalled_abs_mem _ m _ (cloneTarget_isAbsolute m) (List.mem_cons_self _ _)
        · unfold installClone at h
          simp [h1, h2, hc, hz] at h

theorem install_ok_installed (env : Env) (fs : List String) (cache : CacheFile)
    (m : MCP) (h : (install env fs cache m false).ok = true) :
    (isInstalled (install env fs cache m false).fs
      ((install env fs cache m false).mcp)).1 = true ∨
    isPackageRuntime ((install env fs cache m false).mcp).runtime = true := by
  by_cases hA : (isInstalled fs m).1 = true
  · rw [install_eq_installed env fs cache m hA]
    exact Or.inl (isInstalled_idem fs m hA)
  · rw [Bool.not_eq_true] at hA
    by_cases hB : isPackageRuntime ((isInstalled fs m).2).runtime = true
    · rw [install_eq_package env fs cache m hA hB]
      exact Or.inr hB
    · rw [Bool.not_eq_true] at hB
      by_cases hC : pyTruthy ((isInstalled fs m).2).path = true
      · by_cases hD : resolve_path (((isInstalled fs m).2).path.getD "") ∈ fs
        · have heq : install env fs cache m false =
              ⟨runSetup env fs (isInstalled fs m).2, (isInstalled fs m).2, fs,
                invalidateStatusCache
                  (invalidateStatusCache cache (m.name ++ ":claude"))
                  (((isInstalled fs m).2).name ++ ":claude"), false, true⟩ := by
            unfold install
            simp [hA, hB, hC, hD]
          rw [heq]
          exact Or.inl (isInstalled_truthy_mem fs _ hC hD)
        · by_cases hE : ((isInstalled fs m).2).url = ""
          · have heq : install env fs cache m false =
                ⟨false, (isInstalled fs m).2, fs,
                  invalidateStatusCache cache (m.name ++ ":claude"), false, false⟩ := by
              unfold install
              simp [hA, hB, hC, hD, hE]
            rw [heq] at h
            simp at h
          · have heq : install env fs cache m false =
                installClone env fs (invalidateStatusCache cache (m.name ++ ":claude"))
                  ((isInstalled fs m).2) false := by
              unfold install
              simp [hA, hB, hC, hD, hE]
            rw [heq] at h ⊢
            exact Or.inl (installClone_ok_installed _ _ _ _ h)
      · have heq : install env fs cache m false =
            installClone env fs (invalidateStatusCache cache (m.name ++ ":claude"))
              ((isInstalled fs m).2) false := by
          unfold install
          simp [hA, hB, hC]
        rw [heq] at h ⊢
        exact Or.inl (installClone_ok_installed _ _ _ _ h)

/-- C5: when a first `install(force := false)` succeeds, a second
`install(force := false)` run from the resulting state — under any
external environment — returns `true` without attempting a clone
subprocess and without entering setup (no duplicate side effects). -/
theorem C5_install_idempotent (env env' : Env) (fs : List String) (cache : CacheFile)
    (m : MCP) (h : (install env fs cache m false).ok = true) :
    (install env' (install env fs cache m false).fs (install env fs cache m false).cache
      ((install env fs cache m false).mcp) false).ok = true ∧
    (install env' (install env fs cache m false).fs (install env fs cache m false).cache
      ((install env fs cache m false).mcp) false).cloneInvoked = false ∧
    (install env' (install env fs cache m false).fs (install env fs cache m false).cache
      ((install env fs cache m false).mcp) false).ranSetup = false := by
  rcases install_ok_installed env fs cache m h with hinv | hpkg
  · rw [install_eq_installed env' _ _ _ hinv]
    exact ⟨rfl, rfl, rfl⟩
  · by_cases hI : (isInstalled (install env fs cache m false).fs
        ((install env fs cache m false).mcp)).1 = true
    · rw [install_eq_installed env' _ _ _ hI]
      exact ⟨rfl, rfl, rfl⟩
    · rw [Bool.not_eq_true] at hI
      have hB : isPackageRuntime ((isInstalled (install env fs cache m false).fs
          ((install env fs cache m false).mcp)).2).runtime = true := by
        rw [isInstalled_snd_runtime]
        exact hpkg
      rw [install_eq_package env' _ _ _ hI hB]
      exact ⟨rfl, rfl, rfl⟩

/-- C5, witness for `C5_install_idempotent`. -/
theorem C5_install_idempotent_witness :
    (install env0 [] .missing mcpUvx false).ok = true ∧
    ((install env0 (install env0 [] .missing mcpUvx false).fs
        (install env0 [] .missing mcpUvx false).cache
        ((install env0 [] .missing mcpUvx false).mcp) false).ok = true ∧
      (install env0 (install env0 [] .missing mcpUvx false).fs
        (install env0 [] .missing mcpUvx false).cache
        ((install env0 [] .missing mcpUvx false).mcp) false).cloneInvoked = false ∧
      (install env0 (install env0 [] .missing mcpUvx false).fs
        (install env0 [] .missing mcpUvx false).cache
        ((install env0 [] .missing mcpUvx false).mcp) false).ranSetup = false) :=
  ⟨by decide, C5_install_idempotent env0 env0 [] .missing mcpUvx (by decide)⟩

/-! ### Helper lemmas for the registry round-trip (C4) -/

theorem loadEntry_saveEntry (n : String) (u : MCP) (h : u.runtime ∈ validRuntimes) :
    loadEntry n (saveEntry u) = { u with name := n, path := u.path.map persistPath } := by
  unfold loadEntry saveEntry
  simp [postInit, h]

theorem persistPath_idem (p : String)
    (h : strIsPrefixOf (PROJECT_ROOT ++ "/") p = true →
         isAbsolute (p.drop (PROJECT_ROOT.length + 1)) = false) :
    persistPath (persistPath p) = persistPath p := by
  unfold persistPath
  by_cases he : p.isEmpty = true
  · simp [he]
  · simp only [he, if_false, Bool.false_eq_true]
    by_cases he2 : (make_relative_path p).isEmpty = true
    · simp [he2]
    · simp [he2, mrp_idem p h]

theorem saveEntry_roundtrip (n : String) (u : MCP)
    (h1 : u.runtime ∈ validRuntimes)
    (h2 : ∀ p, u.path = some p →
      strIsPrefixOf (PROJECT_ROOT ++ "/") p = true →
      isAbsolute (p.drop (PROJECT_ROOT.length + 1)) = false) :
    saveEntry (loadEntry n (saveEntry u)) = saveEntry u := by
  rw [loadEntry_saveEntry n u h1]
  cases hup : u.path with
  | none => simp [saveEntry, hup]
  | some p =>
    simp [saveEntry, hup, persistPath_idem p (h2 p hup)]

/-- C4: registry round-trip.  For any name-keyed map of units whose
runtimes are valid and whose paths are normalized (the part of a path after
the project root is not itself absolute): (1) saving, loading and saving
again produces a persisted map identical to the one produced by the first
save; (2) loading a saved unit preserves every field per value, with
`path` replaced by its persisted form (`make_relative_path` of a truthy
path); (3) an absolute path outside the project root is persisted
verbatim; (4) a path inside the project root is persisted as its
project-root-relative form, and resolving that relative form yields the
original absolute path again. -/
theorem C4_registry_roundtrip (l : List (String × MCP))
    (h1 : ∀ pr ∈ l, pr.2.runtime ∈ validRuntimes)
    (h2 : ∀ pr ∈ l, ∀ p, pr.2.path = some p →
      strIsPrefixOf (PROJECT_ROOT ++ "/") p = true →
      isAbsolute (p.drop (PROJECT_ROOT.length + 1)) = false) :
    saveMap (loadMap (saveMap l)) = saveMap l ∧
    (∀ pr ∈ l, loadEntry pr.1 (saveEntry pr.2) =
      { pr.2 with name := pr.1, path := pr.2.path.map persistPath }) ∧
    (∀ p : String, isAbsolute p = true → strIsPrefixOf (PROJECT_ROOT ++ "/") p = false →
      p ≠ PROJECT_ROOT → make_relative_path p = p) ∧
    (∀ r : String, isAbsolute r = false →
      make_relative_path (PROJECT_ROOT ++ "/" ++ r) = r ∧
      resolve_path r = PROJECT_ROOT ++ "/" ++ r) := by
  refine ⟨?_, ?_, ?_, ?_⟩
  · simp only [saveMap, loadMap, List.map_map]
    apply List.map_congr_left
    intro pr hpr
    simp only [Function.comp]
    rw [saveEntry_roundtrip pr.1 pr.2 (h1 pr hpr) (h2 pr hpr)]
  · intro pr hpr
    exact loadEntry_saveEntry pr.1 pr.2 (h1 pr hpr)
  · intro p hp1 hp2 hp3
    exact mrp_outside p hp1 hp2 hp3
  · intro r hr
    exact ⟨mrp_inside r, by simp [resolve_path, hr]⟩

/-- C4, witness for `C4_registry_roundtrip` at a concrete map holding a
unit with all optionals unset, a fully populated unit with a path inside
the project root, and a unit with a path outside the project root. -/
theorem C4_registry_roundtrip_witness :
    (∀ pr ∈ regRoundTrip, pr.2.runtime ∈ validRuntimes) ∧
    (∀ pr ∈ regRoundTrip, ∀ p, pr.2.path = some p →
      strIsPrefixOf (PROJECT_ROOT ++ "/") p = true →
      isAbsolute (p.drop (PROJECT_ROOT.length + 1)) = false) ∧
    (saveMap (loadMap (saveMap regRoundTrip)) = saveMap regRoundTrip ∧
     (∀ pr ∈ regRoundTrip, loadEntry pr.1 (saveEntry pr.2) =
       { pr.2 with name := pr.1, path := pr.2.path.map persistPath }) ∧
     (∀ p : String, isAbsolute p = true → strIsPrefixOf (PROJECT_ROOT ++ "/") p = false →
       p ≠ PROJECT_ROOT → make_relative_path p = p) ∧
     (∀ r : String, isAbsolute r = false →
       make_relative_path (PROJECT_ROOT ++ "/" ++ r) = r ∧
       resolve_path r = PROJECT_ROOT ++ "/" ++ r)) :=
  ⟨by decide, by decide, C4_registry_roundtrip regRoundTrip (by decide) (by decide)⟩

end ProteinMCP
